import Mathlib

/-!
Verification development for the MMOMaker game server (`server.js`).

Shallow embedding conventions:
* Node `Buffer`s and JS strings are `List Nat` of byte values.
* JS objects are association lists; key lookup is `alookup`.
* Fallible operations (Node buffer reads that can throw `RangeError`,
  `JSON.parse`, writes of out-of-range values) return `Option`/`Except` or
  carry an explicit error string.
* Machine integers are `Nat`/`Int` with explicit `% 256` / `% 65536` where
  the source writes fixed-width fields.
-/

/- ## List helpers (indexing / slicing over `++`, `replicate`) -/

theorem idxAppR {α : Type} (l l' : List α) (k : Nat) :
    (l ++ l')[l.length + k]? = l'[k]? := by
  induction l with
  | nil => simp
  | cons a t ih => simpa [List.length_cons, Nat.succ_add] using ih

theorem idxAppL {α : Type} (l l' : List α) (k : Nat) (h : k < l.length) :
    (l ++ l')[k]? = l[k]? := by
  induction l generalizing k with
  | nil => simp at h
  | cons a t ih =>
    cases k with
    | zero => simp
    | succ k' => simpa using ih k' (by simpa using h)

theorem dropAppR {α : Type} (l l' : List α) (k : Nat) :
    (l ++ l').drop (l.length + k) = l'.drop k := by
  induction l with
  | nil => simp
  | cons a t ih => simpa [List.length_cons, Nat.succ_add] using ih

theorem takeAppR {α : Type} (l l' : List α) (k : Nat) :
    (l ++ l').take (l.length + k) = l ++ l'.take k := by
  induction l with
  | nil => simp
  | cons a t ih => simpa [List.length_cons, Nat.succ_add] using ih

theorem takeAppLen {α : Type} (l l' : List α) :
    (l ++ l').take l.length = l := by
  simpa using takeAppR l l' 0

theorem dropRep (k n : Nat) :
    (List.replicate n (0 : Nat)).drop k = List.replicate (n - k) 0 := by
  induction n generalizing k with
  | zero => simp
  | succ m ih =>
    cases k with
    | zero => simp
    | succ k' => simpa [List.replicate_succ] using ih k'

/- ## Association lists (JS objects) -/

/-- Key lookup in a JS object modelled as an association list
(`obj[k]` / `k in obj`). -/
def alookup {α β : Type} [DecidableEq α] : List (α × β) → α → Option β
  | [], _ => none
  | e :: rest, k => if e.1 = k then some e.2 else alookup rest k

/-- Property assignment `obj[k] = v`: replaces the value of an existing key in
place, otherwise appends the new key (JS objects keep one entry per key). -/
def aset {α β : Type} [DecidableEq α] (l : List (α × β)) (k : α) (v : β) :
    List (α × β) :=
  if (alookup l k).isSome then l.map (fun e => if e.1 = k then (k, v) else e)
  else l ++ [(k, v)]

/-- Property deletion `delete obj[k]` (JS objects hold a key at most once, so
removing every matching entry coincides with deleting the single entry). -/
def adel {α β : Type} [DecidableEq α] (l : List (α × β)) (k : α) :
    List (α × β) :=
  l.filter (fun e => e.1 ≠ k)

theorem alookup_append_some {α β : Type} [DecidableEq α]
    (l l' : List (α × β)) (k : α) (v : β) (h : alookup l k = some v) :
    alookup (l ++ l') k = some v := by
  induction l with
  | nil => simp [alookup] at h
  | cons e t ih =>
    by_cases he : e.1 = k
    · simpa [alookup, he] using by simpa [alookup, he] using h
    · simpa [alookup, he] using ih (by simpa [alookup, he] using h)

theorem alookup_append_none {α β : Type} [DecidableEq α]
    (l l' : List (α × β)) (k : α) (h : alookup l k = none) :
    alookup (l ++ l') k = alookup l' k := by
  induction l with
  | nil => simp [alookup]
  | cons e t ih =>
    by_cases he : e.1 = k
    · simp [alookup, he] at h
    · simpa [alookup, he] using ih (by simpa [alookup, he] using h)

theorem aset_of_fresh {α β : Type} [DecidableEq α]
    (l : List (α × β)) (k : α) (v : β) (h : alookup l k = none) :
    aset l k v = l ++ [(k, v)] := by
  simp [aset, h]

/- ## Wire codec primitives (`server.js` lines 328-338, 381-396 and the Node
`Buffer` API calls used throughout) -/

/-- Buffer field write at a fixed offset (`buf.write` / `buf.writeUInt8` /
`buf.writeUInt16LE` all specialise this). -/
def bufWrite (b : List Nat) (off : Nat) (bytes : List Nat) : List Nat :=
  b.take off ++ bytes ++ b.drop (off + bytes.length)

/-- Zero-filled buffer: `Buffer.alloc(n)` / `buf.fill(0)`. -/
def zeros (n : Nat) : List Nat := List.replicate n 0

/-- Little-endian 16-bit field as laid out by `writeUInt16LE` (and by
`writeInt16LE` after two's-complement reduction). -/
def toLE16 (n : Nat) : List Nat := [n % 256, n / 256 % 256]

/-- Two's-complement bytes of `writeInt16LE`. -/
def int16LE (v : Int) : List Nat := toLE16 (v % 65536).toNat

/-- Node `data.readUInt8(i)`; `none` models the `RangeError` thrown on an
out-of-bounds read. -/
def readUInt8 (data : List Nat) (i : Nat) : Option Nat := data[i]?

/-- Node `data.readInt16LE(i)` (signed little-endian 16-bit read); `none`
models the out-of-bounds `RangeError`. -/
def readInt16LE (data : List Nat) (i : Nat) : Option Int :=
  match data[i]?, data[i + 1]? with
  | some b0, some b1 =>
    let v := b0 + 256 * b1
    some (if v < 32768 then (v : Int) else (v : Int) - 65536)
  | _, _ => none

/-- Sanitizer `readBufString` (lines 394-396):
`str.toString("utf-8", ind, end).replace(/\0/g, '').replace("\u0005", "")`.
The regex replace removes every NUL byte; the string-pattern replace removes
only the first occurrence of byte `0x05`. -/
def removeFirstFive : List Nat → List Nat
  | [] => []
  | a :: rest => if a = 5 then rest else a :: removeFirstFive rest

def readBufString (str : List Nat) (ind e : Nat) : List Nat :=
  removeFirstFive (((str.drop ind).take (e - ind)).filter (fun b => b ≠ 0))

/- ## Packet type enums (lines 7-48) -/

def serverNet.assign : Nat := 1
def serverNet.message : Nat := 2
def serverNet.miscData : Nat := 3
def serverNet.pos : Nat := 4
def serverNet.myRoom : Nat := 5
def serverNet.outfit : Nat := 6
def serverNet.name : Nat := 7
def serverNet.leave : Nat := 8
def serverNet.playerObj : Nat := 9
def serverNet.heartbeat : Nat := 10

def clientNet.ID : Nat := 20
def clientNet.pos : Nat := 21
def clientNet.myRoom : Nat := 22
def clientNet.outfit : Nat := 23
def clientNet.name : Nat := 24
def clientNet.message : Nat := 25
def clientNet.email : Nat := 26
def clientNet.upload : Nat := 27
def clientNet.miscData : Nat := 28
def clientNet.heartbeat : Nat := 29

def clusterNet.count : Nat := 40
def clusterNet.playerData : Nat := 41
def clusterNet.miscData : Nat := 42
def clusterNet.type : Nat := 43
def clusterNet.serverData : Nat := 44
def clusterNet.queue : Nat := 45
def clusterNet.leave : Nat := 46

/- ## Inbound framing loop (processPacket, lines 173-179 and 275-276)

The loop reads `frameLength = data.readInt16LE(_offset)`, computes
`_end = _offset + frameLength`, reads the type byte at `2 + _offset`,
dispatches the type with the payload bytes `[_offset+3, _end)`, then sets
`_offset = _end` and repeats while `_offset < byteLength(data)`.
`decodeFrames` is the frame-traversal projection of this loop: it records
the `(type, payload)` pair each iteration hands to the switch, leaving the
switch-case bodies out. It is NOT a model of the dispatcher on its own —
the case bodies can throw and abort the loop mid-read; the faithful model
is `processPacket` below, and `processPacket_dispatchFrames` proves that
`processPacket` runs the switch body on exactly the frames recorded here,
in order, stopping at the first thrown error. `none` models a thrown
`RangeError` (out-of-bounds read or a negative offset) or a non-terminating
loop (a frame length that fails to advance the offset, cut off by fuel). -/
def decodeFrames : Nat → List Nat → Nat → Option (List (Nat × List Nat))
  | 0, _, _ => none
  | fuel + 1, data, off =>
    if off < data.length then
      (readInt16LE data off).bind (fun len =>
        (readUInt8 data (2 + off)).bind (fun ty =>
          if 0 ≤ (off : Int) + len then
            (decodeFrames fuel data ((off : Int) + len).toNat).map
              (fun rest =>
                (ty, (data.drop (off + 3)).take
                    (((off : Int) + len).toNat - (off + 3))) :: rest)
          else none))
    else some []

/-- Encoder for the inbound sub-packet layout
`[frameLength:int16-LE][type:uint8][payload]`, `frameLength` counting the
whole sub-packet (2 + 1 + payload bytes). -/
def encodeFrame (ty : Nat) (payload : List Nat) : List Nat :=
  toLE16 (payload.length + 3) ++ ty :: payload

def encodePackets (ps : List (Nat × List Nat)) : List Nat :=
  (ps.map (fun p => encodeFrame p.1 p.2)).flatten

/-- Well-formed sub-packet: the type fits a byte and the frame length fits a
positive int16 (the length-field edge cases excluded by the spec). -/
def wfPacket (p : Nat × List Nat) : Prop :=
  p.1 < 256 ∧ p.2.length + 3 ≤ 32767

instance (p : Nat × List Nat) : Decidable (wfPacket p) := by
  unfold wfPacket; infer_instance

theorem encodeFrame_length (ty : Nat) (payload : List Nat) :
    (encodeFrame ty payload).length = payload.length + 3 := by
  simp only [encodeFrame, toLE16, List.length_append, List.length_cons,
    List.length_nil]
  omega

theorem readInt16LE_encodeFrame (ty : Nat) (pl : List Nat) (rest pre : List Nat)
    (hlen : pl.length + 3 ≤ 32767) :
    readInt16LE (pre ++ (encodeFrame ty pl ++ rest)) pre.length =
      some ((pl.length : Int) + 3) := by
  have h0 : (pre ++ (encodeFrame ty pl ++ rest))[pre.length]? =
      some ((pl.length + 3) % 256) := by
    have := idxAppR pre (encodeFrame ty pl ++ rest) 0
    simpa [encodeFrame, toLE16] using this
  have h1 : (pre ++ (encodeFrame ty pl ++ rest))[pre.length + 1]? =
      some ((pl.length + 3) / 256 % 256) := by
    have := idxAppR pre (encodeFrame ty pl ++ rest) 1
    simpa [encodeFrame, toLE16] using this
  have hv : (pl.length + 3) % 256 + 256 * ((pl.length + 3) / 256 % 256) =
      pl.length + 3 := by omega
  simp only [readInt16LE, h0, h1]
  rw [hv, if_pos (by omega : pl.length + 3 < 32768)]
  norm_cast

theorem readUInt8_encodeFrame_type (ty : Nat) (pl : List Nat)
    (rest pre : List Nat) :
    readUInt8 (pre ++ (encodeFrame ty pl ++ rest)) (2 + pre.length) =
      some ty := by
  have := idxAppR pre (encodeFrame ty pl ++ rest) 2
  simpa [readUInt8, encodeFrame, toLE16, Nat.add_comm] using this

theorem payload_slice_encodeFrame (ty : Nat) (pl : List Nat)
    (rest pre : List Nat) :
    ((pre ++ (encodeFrame ty pl ++ rest)).drop (pre.length + 3)).take
        pl.length = pl := by
  have hd : (pre ++ (encodeFrame ty pl ++ rest)).drop (pre.length + 3) =
      (encodeFrame ty pl ++ rest).drop 3 := dropAppR pre _ 3
  have hd2 : (encodeFrame ty pl ++ rest).drop 3 = pl ++ rest := by
    simp [encodeFrame, toLE16]
  rw [hd, hd2, takeAppLen]

/-- Helper: the decode loop, started just past a well-formed encoded prefix,
returns all remaining packets. -/
theorem decodeFrames_encodePackets (ps : List (Nat × List Nat)) :
    ∀ (pre : List Nat) (fuel : Nat), ps.length < fuel →
    (∀ p ∈ ps, wfPacket p) →
    decodeFrames fuel (pre ++ encodePackets ps) pre.length = some ps := by
  induction ps with
  | nil =>
    intro pre fuel hf _
    cases fuel with
    | zero => omega
    | succ f =>
      simp [decodeFrames, encodePackets]
  | cons p ps ih =>
    intro pre fuel hf hwf
    obtain ⟨ty, pl⟩ := p
    cases fuel with
    | zero => omega
    | succ f =>
      have hwfp : wfPacket (ty, pl) := hwf _ (List.mem_cons_self _ _)
      have hlen : pl.length + 3 ≤ 32767 := hwfp.2
      have henc : encodePackets ((ty, pl) :: ps) =
          encodeFrame ty pl ++ encodePackets ps := by
        simp [encodePackets]
      rw [henc]
      have hlt : pre.length < (pre ++ (encodeFrame ty pl ++ encodePackets ps)).length := by
        simp only [List.length_append, encodeFrame_length]
        omega
      have hread := readInt16LE_encodeFrame ty pl (encodePackets ps) pre hlen
      have hty := readUInt8_encodeFrame_type ty pl (encodePackets ps) pre
      have hpos : 0 ≤ (pre.length : Int) + ((pl.length : Int) + 3) := by omega
      have he : (((pre.length : Int) + ((pl.length : Int) + 3))).toNat =
          pre.length + (pl.length + 3) := by omega
      have hpay := payload_slice_encodeFrame ty pl (encodePackets ps) pre
      have hrec :
          decodeFrames f (pre ++ (encodeFrame ty pl ++ encodePackets ps))
            (pre.length + (pl.length + 3)) = some ps := by
        have hassoc : pre ++ (encodeFrame ty pl ++ encodePackets ps) =
            (pre ++ encodeFrame ty pl) ++ encodePackets ps := by
          simp [List.append_assoc]
        have hlen2 : (pre ++ encodeFrame ty pl).length =
            pre.length + (pl.length + 3) := by
          simp [encodeFrame_length]
        have := ih (pre ++ encodeFrame ty pl) f (by simpa using Nat.lt_of_succ_lt_succ hf)
          (fun q hq => hwf q (List.mem_cons_of_mem _ hq))
        rw [hassoc, ← hlen2]
        exact this
      simp only [decodeFrames, if_pos hlt, hread, hty, Option.some_bind,
        if_pos hpos, he]
      have hsub : pre.length + (pl.length + 3) - (pre.length + 3) = pl.length := by
        omega
      rw [hsub, hpay, hrec]
      rfl

/- ## JSON model

The server calls the platform builtin `JSON.parse` on sanitized payload
strings and `JSON.stringify` on stored player records. We model the builtin
on the fragment the protocol exchanges: flat objects whose keys and values
are quote-delimited strings without escapes or whitespace; every other input
is a parse failure (`none`), standing for the `SyntaxError` that
`JSON.parse` throws. Stored records additionally hold the position triple
written by the pos update (an int16/int16/uint8 array under `stringify`). -/

inductive JVal where
  | str : List Nat → JVal
  | posV : Int → Int → Nat → JVal
deriving DecidableEq, Repr

/-- Scan a string body up to the closing quote (byte 34). -/
def spanStr : List Nat → Option (List Nat × List Nat)
  | [] => none
  | c :: rest =>
    if c = 34 then some ([], rest)
    else (spanStr rest).map (fun p => (c :: p.1, p.2))

/-- Parse a quote-delimited JSON string literal. -/
def parseJStr : List Nat → Option (List Nat × List Nat)
  | [] => none
  | c :: rest => if c = 34 then spanStr rest else none

/-- Parse `"key":"value"` fields up to the closing brace (byte 125),
separated by commas (byte 44) and colons (byte 58). -/
def parseFields : Nat → List Nat → Option (List (List Nat × List Nat) × List Nat)
  | 0, _ => none
  | fuel + 1, s =>
    match parseJStr s with
    | none => none
    | some (key, rest) =>
      match rest with
      | 58 :: rest2 =>
        match parseJStr rest2 with
        | none => none
        | some (val, rest3) =>
          match rest3 with
          | 44 :: rest4 =>
            (parseFields fuel rest4).map (fun p => ((key, val) :: p.1, p.2))
          | 125 :: rest4 => some ([(key, val)], rest4)
          | _ => none
      | _ => none

/-- Model of the `JSON.parse` builtin on flat string-valued objects
(byte 123 opens the object). -/
def parseJsonFlat (s : List Nat) : Option (List (List Nat × List Nat)) :=
  match s with
  | [123, 125] => some []
  | 123 :: rest =>
    match parseFields (rest.length + 1) rest with
    | some (fields, []) => some fields
    | _ => none
  | _ => none

/-- Decimal digits (ASCII) of a natural number, for `JSON.stringify` of the
position numbers. -/
def natDigits (n : Nat) : List Nat :=
  if n < 10 then [48 + n]
  else natDigits (n / 10) ++ [48 + n % 10]
decreasing_by omega

def intDigits (v : Int) : List Nat :=
  if v < 0 then 45 :: natDigits (-v).toNat else natDigits v.toNat

/-- Serialization of a stored field value under `JSON.stringify`. -/
def jvalStr : JVal → List Nat
  | .str s => 34 :: (s ++ [34])
  | .posV x y f =>
    91 :: (intDigits x ++ 44 :: (intDigits y ++ 44 :: (natDigits f ++ [93])))

def stringifyFields : List (List Nat × JVal) → List Nat
  | [] => []
  | [(k, v)] => 34 :: (k ++ 34 :: 58 :: jvalStr v)
  | (k, v) :: rest =>
    (34 :: (k ++ 34 :: 58 :: jvalStr v)) ++ 44 :: stringifyFields rest

/-- Model of the `JSON.stringify` builtin on a stored player record. -/
def stringifyObj (o : List (List Nat × JVal)) : List Nat :=
  123 :: (stringifyFields o ++ [125])

/- ## Errors thrown by the dispatcher (modelled as `Except.error`) -/

def jsonParseErr : String := "SyntaxError: JSON.parse: unexpected input"
def rangeErr : String := "RangeError: value or index out of range"
def typeErr : String := "TypeError: property access on undefined"
def isWSRefErr : String := "ReferenceError: isWS is not defined"
def socketToNameRefErr : String := "ReferenceError: socketToName is not defined"
def refRefErr : String := "ReferenceError: ref is not defined"
def constAssignErr : String := "TypeError: Assignment to constant variable"
def fuelErr : String := "nonterminating frame loop"

/- ## Dispatcher state and outbound sends

`PState` bundles the globals the dispatcher touches (`socketToData`,
`idToSocket`, the unified-cluster flag, whether `serverSocket != -1`) and
the sending socket's mutable `id`/`uid` properties. A send targets either a
registered socket (`Object.values(idToSocket)` member with the given id),
the sending socket itself, or the parent connection (`serverSocket`). The
source reuses two preallocated buffers (`buf`, `bufLarge`) sequentially;
each modelled send carries the buffer contents at the moment of its
`writeToSocket` call. -/

inductive Target where
  | reg : Nat → Target
  | sender : Target
  | parent : Target
deriving DecidableEq, Repr

structure PState where
  socketToData : List (List Nat × List (List Nat × JVal))
  idToSocket : List (Nat × List Nat)
  senderId : Nat
  senderUid : List Nat
  unifiedCluster : Bool
  hasParent : Bool
deriving DecidableEq, Repr

/- Stored-record field keys ("uid", "pos", "myRoom", "name", "outfit") and
the string "undefined" (the value a missing `uid` property coerces to under
the `in` operator and string concatenation). -/

def uidKey : List Nat := [117, 105, 100]
def posKey : List Nat := [112, 111, 115]
def myRoomKey : List Nat := [109, 121, 82, 111, 111, 109]
def nameKey : List Nat := [110, 97, 109, 101]
def outfitKey : List Nat := [111, 117, 116, 102, 105, 116]
def undefinedStr : List Nat := [117, 110, 100, 101, 102, 105, 110, 101, 100]

/- ## Outbound buffer layouts -/

/-- Assign packet sent at connection time (lines 155-159): type byte 1,
uint16-LE session id at offset 1, uid string at offset 3, in a zeroed
512-byte buffer. -/
def assignBuf (id : Nat) (uid : List Nat) : List Nat :=
  bufWrite (bufWrite (bufWrite (zeros 512) 0 [serverNet.assign]) 1
    (toLE16 id)) 3 uid

/-- Chat packet (lines 211-213): type byte 2 at offset 0, message text at
offset 1, in a zeroed 4096-byte buffer; no session id field is written. -/
def chatMsgBuf (text : List Nat) : List Nat :=
  bufWrite (bufWrite (zeros 4096) 0 [serverNet.message]) 1 text

/-- playerObj packet (lines 187-190 and 197-200): type byte 9, the session
id written as a single uint8 at offset 1, JSON text at offset 2. -/
def playerObjBuf (idByte : Nat) (text : List Nat) : List Nat :=
  bufWrite (bufWrite (bufWrite (zeros 4096) 0 [serverNet.playerObj]) 1
    [idByte]) 2 text

/-- Leave packet (lines 364-367 and 371-374): type byte 8, uint16-LE session
id at offset 1. -/
def leaveBuf (id : Nat) : List Nat :=
  bufWrite (bufWrite (zeros 512) 0 [serverNet.leave]) 1 (toLE16 id)

/-- Heartbeat reply (lines 267-269). -/
def heartbeatBuf : List Nat := bufWrite (zeros 512) 0 [serverNet.heartbeat]

/-- Cluster player-count report (lines 162-165); only built with `n ≤ 255`
(the `writeUInt8` range check is enforced at the call site). -/
def countBuf (n : Nat) : List Nat :=
  bufWrite (bufWrite (zeros 512) 0 [clusterNet.count]) 1 [n]

/-- Field-update broadcast buffer built by `sendPlayerData` (lines 381-392):
type byte, uint16-LE sender session id at offset 1, then either the string
data at offset 3 or the position triple as int16-LE/int16-LE/uint8 at
offsets 3/5/7. The type byte is a byte read from the inbound buffer, hence
reduced mod 256. -/
def sendPlayerData (ty : Nat) (d : JVal) (fromSocketID : Nat) : List Nat :=
  match d with
  | .str s =>
    bufWrite (bufWrite (bufWrite (zeros 512) 0 [ty % 256]) 1
      (toLE16 fromSocketID)) 3 s
  | .posV x y f =>
    bufWrite (bufWrite (bufWrite (bufWrite (bufWrite (zeros 512) 0
      [ty % 256]) 1 (toLE16 fromSocketID)) 3 (int16LE x)) 5 (int16LE y)) 7
      [f % 256]

/- ## Packet dispatcher (processPacket, lines 173-277) -/

/-- De-duplication loop at line 183:
`while (_data.uid in socketToData) _data.uid += "f";` (byte 102 is `f`).
The JS loop is unbounded; it is run here with fuel `store.length + 1`,
which always suffices (`dedupUid_fresh` below): the candidate uids have
strictly increasing lengths, so at most `store.length` of them can collide
with existing keys. -/
def dedupUid : Nat → List (List Nat × List (List Nat × JVal)) → List Nat →
    List Nat
  | 0, _, u => u
  | fuel + 1, store, u =>
    if (alookup store u).isSome then dedupUid fuel store (u ++ [102]) else u

/-- Second forEach of the clientID case (lines 195-203): one playerObj
packet to the sender per other registered socket, holding that peer's
stored record. A peer whose uid has no stored record makes
`JSON.stringify(socketToData[_sock.uid])` return undefined and the
subsequent `bufLarge.write(undefined, 2)` throw a TypeError; a peer id
above 255 makes `writeUInt8(_sock.id, 1)` throw a RangeError. Sends made
before a thrown error are not tracked on the error path. -/
def playerObjSends : List (Nat × List Nat) → Nat →
    List (List Nat × List (List Nat × JVal)) →
    Except String (List (Target × List Nat))
  | [], _, _ => .ok []
  | en :: rest, senderId, store =>
    if en.1 = senderId then playerObjSends rest senderId store
    else if en.1 ≤ 255 then
      match alookup store en.2 with
      | none => .error typeErr
      | some o =>
        match playerObjSends rest senderId store with
        | .error er => .error er
        | .ok tail =>
          .ok ((Target.sender, playerObjBuf en.1 (stringifyObj o)) :: tail)
    else .error rangeErr

/-- clientID case (lines 180-205). Parses the sanitized JSON payload,
de-duplicates the uid, stores the record (the `+= "f"` loop mutates the
parsed object's `uid` property whenever it runs), updates `socket.uid`
(the registry aliases the same socket object, so its registry view changes
too), broadcasts the sender's original JSON string as a playerObj packet to
every other registered socket, and sends the sender one playerObj packet
per other registered socket. No assign packet is produced here. -/
def caseID (st : PState) (data : List Nat) (off e : Nat) :
    Except String (PState × List (Target × List Nat)) :=
  let s := readBufString data (3 + off) e
  match parseJsonFlat s with
  | none => .error jsonParseErr
  | some fields =>
    let obj : List (List Nat × JVal) :=
      fields.map (fun kv => (kv.1, JVal.str kv.2))
    let uid0 := (alookup fields uidKey).getD undefinedStr
    let uid := dedupUid (st.socketToData.length + 1) st.socketToData uid0
    let obj1 := if uid = uid0 then obj else aset obj uidKey (JVal.str uid)
    let store1 := aset st.socketToData uid obj1
    if st.senderId ≤ 255 then
      let sends1 := (st.idToSocket.filter (fun en => en.1 ≠ st.senderId)).map
        (fun en => (Target.reg en.1, playerObjBuf st.senderId s))
      match playerObjSends st.idToSocket st.senderId store1 with
      | .error er => .error er
      | .ok sends2 =>
        .ok ({ st with
                socketToData := store1
                senderUid := uid
                idToSocket := st.idToSocket.map
                  (fun en => if en.1 = st.senderId then (en.1, uid) else en) },
             sends1 ++ sends2)
    else .error rangeErr

/-- Chat message case (lines 207-218): broadcast the sanitized text as a
chat packet to every registered socket whose id differs from the sender's;
no state change, no parent forward. -/
def caseMessage (st : PState) (data : List Nat) (off e : Nat) :
    PState × List (Target × List Nat) :=
  let text := readBufString data (3 + off) e
  (st, (st.idToSocket.filter (fun en => en.1 ≠ st.senderId)).map
    (fun en => (Target.reg en.1, chatMsgBuf text)))

/-- Peer broadcast plus optional upward forward used by `forwardPlayerData`
(lines 355-358): one send per registered socket with a different id, and
one send to the parent exactly when `unifiedCluster && serverSocket != -1`. -/
def fwdSends (st : PState) (ty : Nat) (d : JVal) : List (Target × List Nat) :=
  (st.idToSocket.filter (fun en => en.1 ≠ st.senderId)).map
    (fun en => (Target.reg en.1, sendPlayerData ty d st.senderId)) ++
  (if st.unifiedCluster && st.hasParent then
    [(Target.parent, sendPlayerData ty d st.senderId)] else [])

/-- Field store `socketToData[socket.uid].key = value` (lines 347, 351-353),
given the record already looked up. -/
def storeSet (st : PState) (obj : List (List Nat × JVal)) (k : List Nat)
    (d : JVal) : PState :=
  { st with socketToData := aset st.socketToData st.senderUid (aset obj k d) }

/-- Generic field-update path `forwardPlayerData` (lines 340-359):
re-reads the type byte at `dataOffset`, decodes either the position triple
or a sanitized string, stores it into the sender's record (a missing record
makes `socketToData[socket.uid].field = ...` throw a TypeError), then fans
out via `fwdSends`. Unrecognized types skip the store and still fan out. -/
def forwardPlayerData (st : PState) (data : List Nat) (dataOffset e : Nat) :
    Except String (PState × List (Target × List Nat)) :=
  match readUInt8 data dataOffset with
  | none => .error rangeErr
  | some ty =>
    if ty = clientNet.message then
      .ok (st, fwdSends st ty (JVal.str (readBufString data (1 + dataOffset) e)))
    else if ty = clientNet.pos then
      match readInt16LE data (1 + dataOffset), readInt16LE data (3 + dataOffset),
          readUInt8 data (5 + dataOffset) with
      | some x, some y, some f =>
        match alookup st.socketToData st.senderUid with
        | none => .error typeErr
        | some obj =>
          let st1 := storeSet st obj posKey (JVal.posV x y f)
          .ok (st1, fwdSends st1 ty (JVal.posV x y f))
      | _, _, _ => .error rangeErr
    else
      let d := JVal.str (readBufString data (1 + dataOffset) e)
      if ty = clientNet.myRoom then
        match alookup st.socketToData st.senderUid with
        | none => .error typeErr
        | some obj =>
          let st1 := storeSet st obj myRoomKey d
          .ok (st1, fwdSends st1 ty d)
      else if ty = clientNet.name then
        match alookup st.socketToData st.senderUid with
        | none => .error typeErr
        | some obj =>
          let st1 := storeSet st obj nameKey d
          .ok (st1, fwdSends st1 ty d)
      else if ty = clientNet.outfit then
        match alookup st.socketToData st.senderUid with
        | none => .error typeErr
        | some obj =>
          let st1 := storeSet st obj outfitKey d
          .ok (st1, fwdSends st1 ty d)
      else .ok (st, fwdSends st ty d)

/-- Per-type switch body of `processPacket` (lines 179-274).

Cases that the source cannot execute without throwing are modelled as the
corresponding error:
* email (line 227) builds its subject from `socketToName`, a variable that
  is declared nowhere, so constructing `mailOptions` throws a
  ReferenceError;
* upload (line 244) calls `ref.child`, but `ref` is a `const` declared
  inside the `try` block at lines 61-71 and so is block-scoped and not in
  scope here: after a successful `JSON.parse` the case throws a
  ReferenceError;
* the clusterNet.leave case (line 257) reads the bare identifier `isWS`,
  which is declared nowhere (every other site reads `socket.isWS`), so the
  case throws a ReferenceError before the destroy/close and before the
  unified-cluster forward at lines 260-262 can run. -/
def dispatchCase (st : PState) (data : List Nat) (off e : Nat) (ty : Nat) :
    Except String (PState × List (Target × List Nat)) :=
  if ty = clientNet.ID then caseID st data off e
  else if ty = clientNet.message then .ok (caseMessage st data off e)
  else if ty = clientNet.email then .error socketToNameRefErr
  else if ty = clientNet.upload then
    match parseJsonFlat (readBufString data (3 + off) e) with
    | none => .error jsonParseErr
    | some _ => .error refRefErr
  else if ty = clientNet.miscData then
    match parseJsonFlat (readBufString data (3 + off) e) with
    | none => .error jsonParseErr
    | some _ => .ok (st, [])
  else if ty = clusterNet.leave then .error isWSRefErr
  else if ty = clientNet.heartbeat then .ok (st, [(Target.sender, heartbeatBuf)])
  else forwardPlayerData st data (2 + off) e

/-- The packet-processing loop `processPacket` (lines 173-277), threading
the dispatcher state and concatenating the sends of each sub-packet. An
uncaught JS exception in any case aborts the whole handler (there is no
try/catch around the loop), modelled by `Except.error`; sub-packets after
the offending one are not processed. Fuel cuts off the infinite loop a
non-positive frame length would cause. -/
def processPacket : Nat → PState → List Nat → Nat →
    Except String (PState × List (Target × List Nat))
  | 0, _, _, _ => .error fuelErr
  | fuel + 1, st, data, off =>
    if off < data.length then
      match readInt16LE data off with
      | none => .error rangeErr
      | some len =>
        match readUInt8 data (2 + off) with
        | none => .error rangeErr
        | some ty =>
          if 0 ≤ (off : Int) + len then
            match dispatchCase st data off (((off : Int) + len).toNat) ty with
            | .error er => .error er
            | .ok (st1, sends) =>
              match processPacket fuel st1 data (((off : Int) + len).toNat) with
              | .error er => .error er
              | .ok (st2, rest) => .ok (st2, sends ++ rest)
          else .error rangeErr
    else .ok (st, [])

/-- Per-frame reading of the same loop: run the switch body
(`dispatchCase`) once per listed sub-packet of the read, at that
sub-packet's offset in the buffer, threading the dispatcher state and
concatenating the sends, and stopping at the first thrown error.
`processPacket_dispatchFrames` proves `processPacket` equal to this fold
over the encoded frame list, which makes explicit that the loop performs
one dispatch per sub-packet — all `k` of them exactly when every case body
returns normally, fewer when one throws. -/
def dispatchFrames (data : List Nat) : PState → Nat →
    List (Nat × List Nat) → Except String (PState × List (Target × List Nat))
  | st, _, [] => .ok (st, [])
  | st, off, (ty, pl) :: rest =>
    match dispatchCase st data off (off + (pl.length + 3)) ty with
    | .error er => .error er
    | .ok (st1, sends) =>
      match dispatchFrames data st1 (off + (pl.length + 3)) rest with
      | .error er => .error er
      | .ok (st2, s2) => .ok (st2, sends ++ s2)

/- ## Connection accept (serverCode, lines 146-166) -/

/-- Result of the registry/handshake part of `serverCode`: the updated
rolling counter and registry, the assigned session id, the outbound sends
(assign packet to the new socket, then the player-count report to the
parent), and the error, if any, thrown partway through. The registry write
(line 151) and the counter advance (line 150) precede both buffer writes,
so they survive an error. -/
structure AcceptRes where
  playerCount : Nat
  idToSocket : List (Nat × List Nat)
  sockId : Nat
  sends : List (Target × List Nat)
  err : Option String
deriving DecidableEq, Repr

/-- Accept handler `serverCode` (lines 146-166), registry and handshake
part: assigns `id = playerCount + serverIndex * 256`, advances
`playerCount = (playerCount + 1) % 256`, registers `idToSocket[id] =
socket` (silently replacing any live socket already registered under that
id), sends the assign packet (`writeUInt16LE(socket.id, 1)` throws a
RangeError above 65535), and, when a parent socket exists, reports
`Object.keys(idToSocket).length` with `writeUInt8`, which throws a
RangeError as soon as the registry holds more than 255 entries. -/
def serverCode (serverIndex playerCount : Nat) (reg : List (Nat × List Nat))
    (newUid : List Nat) (hasParent : Bool) : AcceptRes :=
  let id := playerCount + serverIndex * 256
  let pc1 := (playerCount + 1) % 256
  let reg1 := aset reg id newUid
  if 65535 < id then ⟨pc1, reg1, id, [], some rangeErr⟩
  else
    let sends := [(Target.sender, assignBuf id newUid)]
    if hasParent then
      if 255 < reg1.length then ⟨pc1, reg1, id, sends, some rangeErr⟩
      else ⟨pc1, reg1, id,
        sends ++ [(Target.parent, countBuf reg1.length)], none⟩
    else ⟨pc1, reg1, id, sends, none⟩

/- ## Disconnect teardown (playerDisconnect, lines 361-379) -/

/-- Teardown routine `playerDisconnect`: deletes the registry entry,
broadcasts a leave packet to every socket still registered, forwards the
same leave packet to the parent when one exists, and deletes the player
record. It is registered for both the transport error event and the close
event (lines 123-128, 139-141) with no guard against running twice. -/
def playerDisconnect (hasParent : Bool) (reg : List (Nat × List Nat))
    (store : List (List Nat × List (List Nat × JVal))) (sockId : Nat)
    (sockUid : List Nat) :
    List (Nat × List Nat) × List (List Nat × List (List Nat × JVal)) ×
      List (Target × List Nat) :=
  let reg1 := adel reg sockId
  (reg1, adel store sockUid,
    reg1.map (fun en => (Target.reg en.1, leaveBuf sockId)) ++
      (if hasParent then [(Target.parent, leaveBuf sockId)] else []))

/- ## Parent-connection data handler (lines 293-320) -/

/-- Outcome of one parent-connection read: either the cluster-level cases
(carrying the possibly updated `unifiedCluster` flag and the sends made),
or delegation of an unrecognized type to `processPacket` with
`serverSocket = -1` (line 318, not modelled further here). -/
inductive ParentRes where
  | handled : Bool → List (Target × List Nat) → ParentRes
  | delegate : ParentRes
deriving DecidableEq, Repr

/-- Parent-socket data handler (lines 293-320). The serverData case
(lines 313-316) executes `nodes = JSON.parse(readBufString(data, 1, _len))`
— but `nodes` is declared `const nodes = {}` at line 282, so after the
right-hand side is evaluated (a JSON failure throwing first), the
assignment itself throws `TypeError: Assignment to constant variable`; the
cached membership view is never replaced. The type case (lines 302-311)
sets `unifiedCluster` when byte 1 equals 1 and answers with a type packet
(whose port write at offset 1 overwrites the role byte just written, as in
the source). -/
def parentDataHandler (unifiedCluster : Bool) (data : List Nat) :
    Except String ParentRes :=
  match readUInt8 data 0 with
  | none => .error rangeErr
  | some b =>
    if b = clusterNet.miscData then
      match parseJsonFlat (readBufString data 1 data.length) with
      | none => .error jsonParseErr
      | some _ => .ok (.handled unifiedCluster [])
    else if b = clusterNet.type then
      match readUInt8 data 1 with
      | none => .error rangeErr
      | some v =>
        let u1 := if v = 1 then true else unifiedCluster
        .ok (.handled u1 [(Target.parent,
          bufWrite (bufWrite (bufWrite (zeros 512) 0 [clusterNet.type]) 1
            [1]) 1 (toLE16 63456))])
    else if b = clusterNet.serverData then
      match parseJsonFlat (readBufString data 1 data.length) with
      | none => .error jsonParseErr
      | some _ => .error constAssignErr
    else .ok .delegate

/- ## De-duplication: the uid returned by the line-183 loop is always fresh -/

theorem alookup_isSome_mem {α β : Type} [DecidableEq α] :
    ∀ (l : List (α × β)) (k : α), (alookup l k).isSome = true →
      k ∈ l.map Prod.fst := by
  intro l
  induction l with
  | nil => intro k h; simp [alookup] at h
  | cons e t ih =>
    intro k h
    by_cases he : e.1 = k
    · simp [he]
    · have := ih k (by simpa [alookup, he] using h)
      simp [this]

theorem alookup_adel_ne {α β : Type} [DecidableEq α] (l : List (α × β))
    (k x : α) (hx : x ≠ k) : alookup (adel l k) x = alookup l x := by
  induction l with
  | nil => rfl
  | cons e t ih =>
    by_cases he : e.1 = k
    · have hex : e.1 ≠ x := fun hh => hx (by rw [← hh, he])
      have h1 : adel (e :: t) k = adel t k := by
        simp [adel, List.filter_cons, he]
      rw [h1, ih]
      simp [alookup, hex]
    · have h1 : adel (e :: t) k = e :: adel t k := by
        simp [adel, List.filter_cons, he]
      rw [h1]
      by_cases hex : e.1 = x
      · simp [alookup, hex]
      · simp [alookup, hex, ih]

theorem adel_length_lt {α β : Type} [DecidableEq α] (l : List (α × β))
    (k : α) (h : (alookup l k).isSome = true) :
    (adel l k).length < l.length := by
  induction l with
  | nil => simp [alookup] at h
  | cons e t ih =>
    by_cases he : e.1 = k
    · have h1 : adel (e :: t) k = adel t k := by
        simp [adel, List.filter_cons, he]
      rw [h1]
      have : (adel t k).length ≤ t.length := List.length_filter_le _ _
      simp only [List.length_cons]
      omega
    · have h1 : adel (e :: t) k = e :: adel t k := by
        simp [adel, List.filter_cons, he]
      have h2 := ih (by simpa [alookup, he] using h)
      rw [h1]
      simp only [List.length_cons]
      omega

/-- Pigeonhole: appending `f` (byte 102) between zero and `store.length`
times always reaches a key absent from the store — the candidates have
pairwise distinct lengths, and each failed candidate pins a distinct store
entry that the next search no longer sees. -/
theorem dedup_candidate_exists {β : Type} :
    ∀ (n : Nat) (store : List (List Nat × β)) (u : List Nat),
      store.length ≤ n →
      ∃ k, k ≤ store.length ∧
        alookup store (u ++ List.replicate k 102) = none := by
  intro n
  induction n with
  | zero =>
    intro store u hn
    have : store = [] := List.length_eq_zero.mp (Nat.le_zero.mp hn)
    subst this
    exact ⟨0, Nat.le_refl _, rfl⟩
  | succ m ih =>
    intro store u hn
    cases hu : alookup store u with
    | none => exact ⟨0, Nat.zero_le _, by simpa using hu⟩
    | some v =>
      have hsome : (alookup store u).isSome = true := by simp [hu]
      have hlt := adel_length_lt store u hsome
      obtain ⟨k, hk, hnone⟩ := ih (adel store u) (u ++ [102]) (by omega)
      refine ⟨k + 1, by omega, ?_⟩
      have hne : u ++ List.replicate (k + 1) 102 ≠ u := by
        intro hh
        have := congrArg List.length hh
        simp [List.length_append, List.length_replicate] at this
      have hsplit : u ++ List.replicate (k + 1) 102 =
          (u ++ [102]) ++ List.replicate k 102 := by
        simp [List.replicate_succ, List.append_assoc]
      rw [hsplit]
      rw [← alookup_adel_ne store u ((u ++ [102]) ++ List.replicate k 102)
        (by rw [← hsplit]; exact hne)]
      exact hnone

theorem dedupUid_free_of_exists :
    ∀ (fuel : Nat) (store : List (List Nat × List (List Nat × JVal)))
      (u : List Nat),
      (∃ k, k < fuel ∧ alookup store (u ++ List.replicate k 102) = none) →
      alookup store (dedupUid fuel store u) = none := by
  intro fuel
  induction fuel with
  | zero =>
    intro store u h
    obtain ⟨k, hk, _⟩ := h
    omega
  | succ f ih =>
    intro store u h
    obtain ⟨k, hk, hfree⟩ := h
    by_cases hu : (alookup store u).isSome = true
    · have hrec : ∃ k', k' < f ∧
          alookup store ((u ++ [102]) ++ List.replicate k' 102) = none := by
        cases k with
        | zero =>
          simp only [List.replicate, List.append_nil] at hfree
          rw [hfree] at hu
          simp at hu
        | succ k' =>
          refine ⟨k', by omega, ?_⟩
          rw [List.append_assoc]
          simpa [List.replicate_succ] using hfree
      simp only [dedupUid, if_pos hu]
      exact ih store (u ++ [102]) hrec
    · simp only [dedupUid, if_neg hu]
      exact Option.not_isSome_iff_eq_none.mp (by simpa using hu)

/-- The uid stored by the clientID case is never already a key of
`socketToData`: running the line-183 loop with fuel `store.length + 1`
returns a key absent from the store. -/
theorem dedupUid_fresh (store : List (List Nat × List (List Nat × JVal)))
    (u : List Nat) :
    alookup store (dedupUid (store.length + 1) store u) = none := by
  obtain ⟨k, hk, hfree⟩ := dedup_candidate_exists store.length store u
    (Nat.le_refl _)
  exact dedupUid_free_of_exists _ store u ⟨k, by omega, hfree⟩

/- ## Buffer layout normal forms -/

theorem zeros_succ (n : Nat) : zeros (n + 1) = 0 :: zeros n := rfl

theorem bufWrite0 (b bytes : List Nat) :
    bufWrite b 0 bytes = bytes ++ b.drop bytes.length := by
  simp [bufWrite]

theorem bufWrite_cons (c : Nat) (z bytes : List Nat) (off : Nat) :
    bufWrite (c :: z) (off + 1) bytes = c :: bufWrite z off bytes := by
  have h : off + 1 + bytes.length = (off + bytes.length) + 1 := by omega
  simp [bufWrite, h, List.take_succ_cons, List.drop_succ_cons]

theorem bufWrite_zeros_head (n c : Nat) :
    bufWrite (zeros (n + 1)) 0 [c] = c :: zeros n := by
  rw [bufWrite0]
  simp [zeros_succ]

theorem zeros_drop (k n : Nat) : (zeros n).drop k = zeros (n - k) := by
  simp [zeros, dropRep]

theorem zeros_tail (n : Nat) : (zeros n).tail = zeros (n - 1) := by
  cases n <;> rfl

theorem bufWrite1 (c : Nat) (z bytes : List Nat) :
    bufWrite (c :: z) 1 bytes = c :: (bytes ++ z.drop bytes.length) := by
  have h := bufWrite_cons c z bytes 0
  rw [bufWrite0] at h
  simpa using h

theorem bufWrite2 (c1 c2 : Nat) (z bytes : List Nat) :
    bufWrite (c1 :: c2 :: z) 2 bytes =
      c1 :: c2 :: (bytes ++ z.drop bytes.length) := by
  have h := bufWrite_cons c1 (c2 :: z) bytes 1
  rw [bufWrite1] at h
  simpa using h

theorem bufWrite3 (c1 c2 c3 : Nat) (z bytes : List Nat) :
    bufWrite (c1 :: c2 :: c3 :: z) 3 bytes =
      c1 :: c2 :: c3 :: (bytes ++ z.drop bytes.length) := by
  have h := bufWrite_cons c1 (c2 :: c3 :: z) bytes 2
  rw [bufWrite2] at h
  simpa using h

theorem bufWrite_zeros512_head (c : Nat) :
    bufWrite (zeros 512) 0 [c] = c :: zeros 511 := by
  rw [bufWrite0]
  simp [zeros_drop, zeros_tail]

theorem bufWrite_zeros4096_head (c : Nat) :
    bufWrite (zeros 4096) 0 [c] = c :: zeros 4095 := by
  rw [bufWrite0]
  simp [zeros_drop, zeros_tail]

theorem chatMsgBuf_eq (t : List Nat) :
    chatMsgBuf t = serverNet.message :: (t ++ (zeros 4095).drop t.length) := by
  rw [chatMsgBuf, bufWrite_zeros4096_head, bufWrite1]

theorem playerObjBuf_eq (i : Nat) (s : List Nat) :
    playerObjBuf i s =
      serverNet.playerObj :: i :: (s ++ (zeros 4094).drop s.length) := by
  have h1 : bufWrite (serverNet.playerObj :: zeros 4095) 1 [i] =
      serverNet.playerObj :: i :: zeros 4094 := by
    rw [bufWrite1]
    simp [zeros_drop, zeros_tail]
  rw [playerObjBuf, bufWrite_zeros4096_head, h1, bufWrite2]

theorem assignBuf_eq (id : Nat) (uid : List Nat) :
    assignBuf id uid = serverNet.assign :: (id % 256) :: (id / 256 % 256) ::
      (uid ++ (zeros 509).drop uid.length) := by
  have h1 : bufWrite (serverNet.assign :: zeros 511) 1 (toLE16 id) =
      serverNet.assign :: (id % 256) :: (id / 256 % 256) :: zeros 509 := by
    rw [bufWrite1, toLE16]
    simp [zeros_drop, zeros_tail]
  rw [assignBuf, bufWrite_zeros512_head, h1, bufWrite3]

theorem leaveBuf_eq (id : Nat) :
    leaveBuf id = serverNet.leave :: (id % 256) :: (id / 256 % 256) ::
      zeros 509 := by
  have h1 : bufWrite (serverNet.leave :: zeros 511) 1 (toLE16 id) =
      serverNet.leave :: (id % 256) :: (id / 256 % 256) :: zeros 509 := by
    rw [bufWrite1, toLE16]
    simp [zeros_drop, zeros_tail]
  rw [leaveBuf, bufWrite_zeros512_head, h1]

theorem sendPlayerData_str_eq (ty : Nat) (s : List Nat) (id : Nat) :
    sendPlayerData ty (JVal.str s) id = (ty % 256) :: (id % 256) ::
      (id / 256 % 256) :: (s ++ (zeros 509).drop s.length) := by
  have h1 : bufWrite ((ty % 256) :: zeros 511) 1 (toLE16 id) =
      (ty % 256) :: (id % 256) :: (id / 256 % 256) :: zeros 509 := by
    rw [bufWrite1, toLE16]
    simp [zeros_drop, zeros_tail]
  rw [sendPlayerData, bufWrite_zeros512_head, h1, bufWrite3]

/- ## Sanitizer properties (claim C8) -/

theorem removeFirstFive_mem (x : Nat) :
    ∀ l : List Nat, x ∈ removeFirstFive l → x ∈ l := by
  intro l
  induction l with
  | nil => simp [removeFirstFive]
  | cons a rest ih =>
    by_cases ha : a = 5
    · simp only [removeFirstFive, if_pos ha]
      intro h
      exact List.mem_cons_of_mem _ h
    · simp only [removeFirstFive, if_neg ha]
      intro h
      rcases List.mem_cons.mp h with h1 | h2
      · exact h1 ▸ List.mem_cons_self _ _
      · exact List.mem_cons_of_mem _ (ih h2)

theorem count5_removeFirstFive :
    ∀ l : List Nat, (removeFirstFive l).count 5 =
      l.count 5 - (if 5 ∈ l then 1 else 0) := by
  intro l
  induction l with
  | nil => simp [removeFirstFive]
  | cons a rest ih =>
    by_cases ha : a = 5
    · subst ha
      simp [removeFirstFive, List.count_cons]
    · simp only [removeFirstFive, if_neg ha]
      have hc : (a :: removeFirstFive rest).count 5 =
          (removeFirstFive rest).count 5 := by
        simp [List.count_cons, ha]
      have hc2 : (a :: rest).count 5 = rest.count 5 := by
        simp [List.count_cons, ha]
      rw [hc, hc2, ih]
      by_cases h5 : 5 ∈ rest
      · simp [h5, List.mem_cons.mpr (Or.inr h5)]
      · have : ¬ (5 ∈ a :: rest) := by
          intro hh
          rcases List.mem_cons.mp hh with h1 | h2
          · exact ha h1.symm
          · exact h5 h2
        simp [h5, this]

/-- C8 (amended). The sanitizer `readBufString` (lines 394-396) removes all
NUL bytes from the decoded slice but removes only the FIRST occurrence of
the control byte 0x05 (`.replace("\u0005", "")` with a string pattern
replaces one occurrence): the result never contains 0x00, and its count of
0x05 bytes is the slice's count diminished by exactly one when the slice
contained any. -/
theorem readBufString_sanitization (s : List Nat) (ind e : Nat) :
    0 ∉ readBufString s ind e ∧
      (readBufString s ind e).count 5 =
        ((s.drop ind).take (e - ind)).count 5 -
          (if 5 ∈ (s.drop ind).take (e - ind) then 1 else 0) := by
  constructor
  · intro hmem
    have h2 := removeFirstFive_mem 0 _ hmem
    have h3 := List.of_mem_filter h2
    simp at h3
  · rw [readBufString, count5_removeFirstFive]
    have hcount : (((s.drop ind).take (e - ind)).filter (fun b => b ≠ 0)).count 5 =
        ((s.drop ind).take (e - ind)).count 5 := by
      induction (s.drop ind).take (e - ind) with
      | nil => simp
      | cons a rest ih =>
        by_cases ha : a = 0
        · subst ha
          simp [List.filter_cons, List.count_cons, ih]
        · by_cases h5 : a = 5
          · subst h5
            simp [List.filter_cons, List.count_cons, ih]
          · simp [List.filter_cons, List.count_cons, ha, h5, ih]
    rw [hcount]
    have hiff : (5 ∈ ((s.drop ind).take (e - ind)).filter (fun b => b ≠ 0)) ↔
        (5 ∈ (s.drop ind).take (e - ind)) := by
      simp [List.mem_filter]
    rw [if_congr hiff rfl rfl]

/-- C8 counterexample: a decoded slice holding two 0x05 bytes keeps one of
them, so the decoded string can still contain 0x05, contrary to the claim
that it never does. -/
theorem readBufString_keeps_second_five :
    (5 : Nat) ∈ readBufString [5, 5] 0 2 := by decide

/- ## Packet layout facts (claim C9) -/

theorem take_one_add (c : Nat) (l : List Nat) (n : Nat) :
    (c :: l).take (1 + n) = c :: l.take n := by
  rw [Nat.add_comm]
  rfl

theorem take3_cons (c1 c2 c3 : Nat) (rest : List Nat) :
    (c1 :: c2 :: c3 :: rest).take 3 = [c1, c2, c3] := rfl

/-- C9. An outbound chat packet (lines 211-213) is the type byte
`serverNet.message` (2) at offset 0 followed immediately by the message
text from offset 1 — no sender sessionId field is written anywhere in it,
so a recipient cannot identify the sender from the packet bytes — whereas
the assign, leave, and field-update packets all carry a uint16-LE session
id at offsets 1-2. -/
theorem chat_packet_carries_no_sender_id (text uid s : List Nat)
    (id ty : Nat) :
    (chatMsgBuf text).take (1 + text.length) = serverNet.message :: text ∧
    (assignBuf id uid).take 3 = serverNet.assign :: toLE16 id ∧
    (leaveBuf id).take 3 = serverNet.leave :: toLE16 id ∧
    (sendPlayerData ty (JVal.str s) id).take 3 = (ty % 256) :: toLE16 id := by
  refine ⟨?_, ?_, ?_, ?_⟩
  · rw [chatMsgBuf_eq, take_one_add, takeAppLen]
  · rw [assignBuf_eq, toLE16, take3_cons]
  · rw [leaveBuf_eq, toLE16, take3_cons]
  · rw [sendPlayerData_str_eq, toLE16, take3_cons]

/- ## Disconnect teardown properties (claim C3) -/

theorem adel_idem {α β : Type} [DecidableEq α] (l : List (α × β)) (k : α) :
    adel (adel l k) k = adel l k := by
  simp [adel, List.filter_filter]

/-- C3 (amended). Both the transport error handler and the close handler
(lines 123-128, 139-141) invoke the same teardown routine
`playerDisconnect`, which never throws and whose registry/store deletions
are idempotent; but a second invocation for the same connection broadcasts
the leave packet to every remaining session AGAIN (and re-sends it to the
parent), because nothing records that the teardown already ran. -/
theorem playerDisconnect_twice (hasParent : Bool)
    (reg : List (Nat × List Nat))
    (store : List (List Nat × List (List Nat × JVal))) (sockId : Nat)
    (sockUid : List Nat) :
    playerDisconnect hasParent
        (playerDisconnect hasParent reg store sockId sockUid).1
        (playerDisconnect hasParent reg store sockId sockUid).2.1 sockId
        sockUid =
      ((playerDisconnect hasParent reg store sockId sockUid).1,
       (playerDisconnect hasParent reg store sockId sockUid).2.1,
       (playerDisconnect hasParent reg store sockId sockUid).1.map
          (fun en => (Target.reg en.1, leaveBuf sockId)) ++
         (if hasParent then [(Target.parent, leaveBuf sockId)] else [])) := by
  simp [playerDisconnect, adel_idem]

/-- C3 counterexample: two sessions 0 and 1 are connected; the teardown for
session 0 runs twice (as it does when the transport emits both an error and
a close event), and the second run broadcasts a leave packet to session 1
again — refuting the claim that a second invocation does not re-broadcast. -/
theorem playerDisconnect_twice_rebroadcasts :
    (playerDisconnect false
        (playerDisconnect false [(0, [97]), (1, [98])] [] 0 [97]).1
        (playerDisconnect false [(0, [97]), (1, [98])] [] 0 [97]).2.1
        0 [97]).2.2 = [(Target.reg 1, leaveBuf 0)] := by rfl

/- ## Single-frame unfolding of the dispatcher loop -/

theorem readInt16LE_frame0 (ty : Nat) (pl : List Nat)
    (hlen : pl.length + 3 ≤ 32767) :
    readInt16LE (encodeFrame ty pl) 0 = some ((pl.length : Int) + 3) := by
  have h := readInt16LE_encodeFrame ty pl [] [] hlen
  simpa using h

theorem readUInt8_frame2 (ty : Nat) (pl : List Nat) :
    readUInt8 (encodeFrame ty pl) 2 = some ty := by
  have h := readUInt8_encodeFrame_type ty pl [] []
  simpa using h

/-- A read holding exactly one sub-packet runs the switch body once: the
loop dispatches the frame with `_end = frameLength` and then exits because
`_offset` has reached the buffer length. -/
theorem processPacket_single (st : PState) (ty : Nat) (pl : List Nat)
    (fuel : Nat) (hlen : pl.length + 3 ≤ 32767) :
    processPacket (fuel + 2) st (encodeFrame ty pl) 0 =
      dispatchCase st (encodeFrame ty pl) 0 (pl.length + 3) ty := by
  have h1 : (encodeFrame ty pl).length = pl.length + 3 :=
    encodeFrame_length ty pl
  have hread := readInt16LE_frame0 ty pl hlen
  have hty := readUInt8_frame2 ty pl
  have htoNat : ((((0 : Nat)) : Int) + ((pl.length : Int) + 3)).toNat =
      pl.length + 3 := by omega
  show processPacket (fuel + 1 + 1) st (encodeFrame ty pl) 0 = _
  simp only [processPacket, h1, hread, hty]
  rw [if_pos (by omega : 0 < pl.length + 3)]
  rw [if_pos (by omega : (0 : Int) ≤ (((0 : Nat)) : Int) +
    ((pl.length : Int) + 3))]
  rw [htoNat]
  cases hd : dispatchCase st (encodeFrame ty pl) 0 (pl.length + 3) ty with
  | error er => rfl
  | ok r =>
    obtain ⟨st1, sends⟩ := r
    simp only [processPacket, h1]
    rw [if_neg (by omega : ¬ pl.length + 3 < pl.length + 3)]
    simp

theorem readBufString_frame (ty : Nat) (pl rest : List Nat) :
    readBufString (encodeFrame ty pl ++ rest) 3 (pl.length + 3) =
      removeFirstFive (pl.filter (fun b => b ≠ 0)) := by
  rw [readBufString]
  have hd : (encodeFrame ty pl ++ rest).drop 3 = pl ++ rest := by
    simp [encodeFrame, toLE16]
  have hsub : pl.length + 3 - 3 = pl.length := by omega
  rw [hd, hsub, takeAppLen]

theorem readBufString_frame_single (ty : Nat) (pl : List Nat) :
    readBufString (encodeFrame ty pl) 3 (pl.length + 3) =
      removeFirstFive (pl.filter (fun b => b ≠ 0)) := by
  have h := readBufString_frame ty pl []
  simpa using h

/-- C6. A chat message sub-packet from the session with id `st.senderId`
is processed without error or state change, and the resulting chat packet
is sent to exactly the registered sockets whose id differs from the
sender's: no delivery targets the sender, and every other
currently-registered session receives the chat packet. -/
theorem chat_broadcast_excludes_sender (st : PState) (pl : List Nat)
    (fuel : Nat) (hlen : pl.length + 3 ≤ 32767) :
    ∃ sends,
      processPacket (fuel + 2) st (encodeFrame clientNet.message pl) 0 =
        .ok (st, sends) ∧
      (∀ p ∈ sends, ∃ i, i ≠ st.senderId ∧ p.1 = Target.reg i) ∧
      (∀ en ∈ st.idToSocket, en.1 ≠ st.senderId →
        (Target.reg en.1,
          chatMsgBuf (removeFirstFive (pl.filter (fun b => b ≠ 0)))) ∈
            sends) := by
  refine ⟨(st.idToSocket.filter (fun en => en.1 ≠ st.senderId)).map
    (fun en => (Target.reg en.1,
      chatMsgBuf (removeFirstFive (pl.filter (fun b => b ≠ 0))))), ?_, ?_, ?_⟩
  · rw [processPacket_single st clientNet.message pl fuel hlen]
    have h20 : ¬ clientNet.message = clientNet.ID := by decide
    rw [dispatchCase, if_neg h20, if_pos rfl]
    rw [caseMessage]
    have h30 : (3 : Nat) + 0 = 3 := by omega
    rw [h30, readBufString_frame_single]
  · intro p hp
    obtain ⟨en, hen, hpe⟩ := List.mem_map.mp hp
    have hne : en.1 ≠ st.senderId := by
      have := List.of_mem_filter hen
      simpa using this
    exact ⟨en.1, hne, by rw [← hpe]⟩
  · intro en hen hne
    exact List.mem_map.mpr ⟨en, List.mem_filter.mpr ⟨hen, by simpa using hne⟩,
      rfl⟩

/-- Witness for C6 at a concrete state: sender session 0, peer session 1. -/
theorem chat_broadcast_excludes_sender_witness :
    (([104, 105] : List Nat).length + 3 ≤ 32767) ∧
    (∃ sends,
      processPacket 2 (PState.mk [] [(0, [97]), (1, [98])] 0 [97] false true)
          (encodeFrame clientNet.message [104, 105]) 0 =
        .ok (PState.mk [] [(0, [97]), (1, [98])] 0 [97] false true, sends) ∧
      (∀ p ∈ sends, ∃ i,
        i ≠ (PState.mk [] [(0, [97]), (1, [98])] 0 [97] false true).senderId ∧
          p.1 = Target.reg i) ∧
      (∀ en ∈ (PState.mk [] [(0, [97]), (1, [98])] 0 [97] false
          true).idToSocket,
        en.1 ≠ (PState.mk [] [(0, [97]), (1, [98])] 0 [97] false
          true).senderId →
        (Target.reg en.1,
          chatMsgBuf (removeFirstFive (([104, 105] : List Nat).filter
            (fun b => b ≠ 0)))) ∈ sends)) :=
  ⟨by decide,
    chat_broadcast_excludes_sender
      (PState.mk [] [(0, [97]), (1, [98])] 0 [97] false true) [104, 105] 0
      (by decide)⟩

/- ## Malformed payloads crash the dispatcher (claim C4) -/

theorem processPacket_first_error (st : PState) (ty : Nat)
    (pl rest : List Nat) (fuel : Nat) (hlen : pl.length + 3 ≤ 32767)
    (er : String)
    (hd : dispatchCase st (encodeFrame ty pl ++ rest) 0 (pl.length + 3) ty =
      .error er) :
    processPacket (fuel + 1) st (encodeFrame ty pl ++ rest) 0 = .error er := by
  have hread : readInt16LE (encodeFrame ty pl ++ rest) 0 =
      some ((pl.length : Int) + 3) := by
    have h := readInt16LE_encodeFrame ty pl rest [] hlen
    simpa using h
  have hty8 : readUInt8 (encodeFrame ty pl ++ rest) 2 = some ty := by
    have h := readUInt8_encodeFrame_type ty pl rest []
    simpa using h
  have hlt : 0 < (encodeFrame ty pl ++ rest).length := by
    simp only [List.length_append, encodeFrame_length]
    omega
  have htoNat : ((((0 : Nat)) : Int) + ((pl.length : Int) + 3)).toNat =
      pl.length + 3 := by omega
  simp only [processPacket, hread, hty8]
  rw [if_pos hlt]
  rw [if_pos (by omega : (0 : Int) ≤ (((0 : Nat)) : Int) +
    ((pl.length : Int) + 3))]
  rw [htoNat, hd]

/-- C4 (amended). A sub-packet whose payload fails JSON parsing (here the
miscData case, line 252) throws an uncaught SyntaxError out of the
dispatcher — there is no try/catch anywhere in `processPacket` — so the
offending sub-packet is not dropped: the whole read is aborted and the
remaining sub-packets in the same read are never processed. -/
theorem malformed_json_crashes_dispatcher (st : PState) (pl rest : List Nat)
    (fuel : Nat) (hlen : pl.length + 3 ≤ 32767)
    (hbad : parseJsonFlat (removeFirstFive (pl.filter (fun b => b ≠ 0))) =
      none) :
    processPacket (fuel + 1) st (encodeFrame clientNet.miscData pl ++ rest)
      0 = .error jsonParseErr := by
  apply processPacket_first_error st clientNet.miscData pl rest fuel hlen
  have h1 : ¬ clientNet.miscData = clientNet.ID := by decide
  have h2 : ¬ clientNet.miscData = clientNet.message := by decide
  have h3 : ¬ clientNet.miscData = clientNet.email := by decide
  have h4 : ¬ clientNet.miscData = clientNet.upload := by decide
  rw [dispatchCase, if_neg h1, if_neg h2, if_neg h3, if_neg h4, if_pos rfl]
  have h30 : (3 : Nat) + 0 = 3 := by omega
  rw [h30, readBufString_frame, hbad]

/-- C4 counterexample: a read holding a miscData sub-packet with the
non-JSON payload byte `h` followed by a well-formed heartbeat sub-packet.
Processing the read does not drop the bad sub-packet and continue: it
aborts with the JSON SyntaxError — the heartbeat is never answered and the
dispatcher (which has no handler for the exception) crashes. -/
theorem malformed_json_counterexample :
    processPacket 3 (PState.mk [] [(0, [97])] 0 [97] false true)
        (encodeFrame clientNet.miscData [104] ++ encodeFrame
          clientNet.heartbeat []) 0 = .error jsonParseErr := by
  rfl

/-- Witness for C4 at the same concrete read. -/
theorem malformed_json_crashes_dispatcher_witness :
    (([104] : List Nat).length + 3 ≤ 32767) ∧
    (parseJsonFlat (removeFirstFive (([104] : List Nat).filter
      (fun b => b ≠ 0))) = none) ∧
    processPacket 3 (PState.mk [] [(0, [98])] 0 [98] false true)
        (encodeFrame clientNet.miscData [104] ++ encodeFrame
          clientNet.heartbeat []) 0 = .error jsonParseErr :=
  ⟨by decide, by decide,
    malformed_json_crashes_dispatcher
      (PState.mk [] [(0, [98])] 0 [98] false true) [104]
      (encodeFrame clientNet.heartbeat []) 2 (by decide) (by decide)⟩

/- ## Unified-cluster forwarding (claim C5) -/

/-- C5. Evaluation of the two packet kinds the claim covers, at a state
with a parent connection and one peer (sender session 0, peer session 1,
sender record stored):
* a leave sub-packet (type 46) makes the dispatcher throw
  `ReferenceError: isWS is not defined` (line 257 reads the bare
  identifier `isWS`, declared nowhere) BEFORE the unified-cluster forward
  at lines 260-262 can run — regardless of the unified-cluster flag, the
  leave packet is never forwarded and the handler crashes;
* a position field-update sub-packet is forwarded to the parent exactly
  once when `unifiedCluster` is true and never when it is false, as the
  claim states. -/
theorem unified_forwarding_evaluation :
    processPacket 3
        (PState.mk [([97], [(uidKey, JVal.str [97])])] [(0, [97]), (1, [98])]
          0 [97] true true) (encodeFrame clusterNet.leave []) 0 =
      .error isWSRefErr ∧
    processPacket 3
        (PState.mk [([97], [(uidKey, JVal.str [97])])] [(0, [97]), (1, [98])]
          0 [97] false true) (encodeFrame clusterNet.leave []) 0 =
      .error isWSRefErr ∧
    (processPacket 3
        (PState.mk [([97], [(uidKey, JVal.str [97])])] [(0, [97]), (1, [98])]
          0 [97] true true) (encodeFrame clientNet.pos [100, 0, 206, 255, 2])
        0).toOption.map
      (fun r => (r.2.filter (fun sd => sd.1 = Target.parent)).length) =
        some 1 ∧
    (processPacket 3
        (PState.mk [([97], [(uidKey, JVal.str [97])])] [(0, [97]), (1, [98])]
          0 [97] false true) (encodeFrame clientNet.pos
          [100, 0, 206, 255, 2]) 0).toOption.map
      (fun r => (r.2.filter (fun sd => sd.1 = Target.parent)).length) =
        some 0 := by
  refine ⟨rfl, rfl, ?_, ?_⟩ <;> decide

/- ## Cluster serverData handling (claim C7) -/

/-- C7. Receiving a cluster serverData packet (type byte 44) with the valid
JSON payload of an empty object makes the parent-socket data handler throw
`TypeError: Assignment to constant variable`: line 314 assigns to `nodes`,
which line 282 declares `const`. The cached cluster membership view is
never replaced, and an error IS raised, for either prior value of the
unified-cluster flag. -/
theorem serverData_packet_throws :
    parentDataHandler false [44, 123, 125] = .error constAssignErr ∧
    parentDataHandler true [44, 123, 125] = .error constAssignErr :=
  ⟨rfl, rfl⟩

/- ## Registry insertion properties (claim C10) -/

theorem alookup_aset_self {α β : Type} [DecidableEq α] (l : List (α × β))
    (k : α) (v : β) : alookup (aset l k v) k = some v := by
  by_cases h : (alookup l k).isSome
  · rw [aset, if_pos h]
    induction l with
    | nil => simp [alookup] at h
    | cons e t ih =>
      by_cases he : e.1 = k
      · simp [alookup, he]
      · have h' : (alookup t k).isSome := by simpa [alookup, he] using h
        simpa [alookup, he] using ih h'
  · rw [aset, if_neg h]
    rw [alookup_append_none _ _ _ (Option.not_isSome_iff_eq_none.mp
      (by simpa using h))]
    simp [alookup]

theorem alookup_replacemap_ne {α β : Type} [DecidableEq α]
    (l : List (α × β)) (k k' : α) (v : β) (hk : k' ≠ k) :
    alookup (l.map (fun e => if e.1 = k then (k, v) else e)) k' =
      alookup l k' := by
  induction l with
  | nil => rfl
  | cons e t ih =>
    by_cases he : e.1 = k
    · have hkk' : ¬ k = k' := fun hh => hk hh.symm
      have hek' : ¬ e.1 = k' := by rw [he]; exact hkk'
      have hfe : (if e.1 = k then (k, v) else e) = (k, v) := if_pos he
      simp only [List.map_cons, hfe]
      simp [alookup, hkk', hek', ih]
    · have hfe : (if e.1 = k then (k, v) else e) = e := if_neg he
      simp only [List.map_cons, hfe]
      simp [alookup, ih]

theorem alookup_append_single_ne {α β : Type} [DecidableEq α]
    (l : List (α × β)) (k k' : α) (v : β) (hk : k' ≠ k) :
    alookup (l ++ [(k, v)]) k' = alookup l k' := by
  induction l with
  | nil =>
    have hkk' : ¬ k = k' := fun hh => hk hh.symm
    simp [alookup, hkk']
  | cons e t ih =>
    by_cases he : e.1 = k' <;> simp [alookup, he, ih]

theorem alookup_aset_ne {α β : Type} [DecidableEq α] (l : List (α × β))
    (k k' : α) (v : β) (hk : k' ≠ k) :
    alookup (aset l k v) k' = alookup l k' := by
  by_cases h : (alookup l k).isSome
  · rw [aset, if_pos h]
    exact alookup_replacemap_ne l k k' v hk
  · rw [aset, if_neg h]
    exact alookup_append_single_ne l k k' v hk

/-- After an in-place registry overwrite, the displaced socket is no longer
among the registry's values, provided it was registered only under the
overwritten id and differs from the new socket. -/
theorem aset_displaced_not_value {α β : Type} [DecidableEq α]
    (l : List (α × β)) (k : α) (v w : β) (hvw : w ≠ v)
    (hw : ∀ e ∈ l, e.2 = w → e.1 = k) (hpres : (alookup l k).isSome) :
    w ∉ (aset l k v).map Prod.snd := by
  rw [aset, if_pos hpres]
  intro hmem
  rw [List.map_map] at hmem
  obtain ⟨e, he, heq⟩ := List.mem_map.mp hmem
  by_cases hek : e.1 = k
  · simp only [Function.comp, hek, if_pos rfl] at heq
    exact hvw heq.symm
  · simp only [Function.comp, hek, if_neg hek] at heq
    exact hek (hw e he heq)

/-- C10 (amended). On accept, `serverCode` assigns
`sessionId = playerCount + serverIndex * 256` and advances the rolling
counter `playerCount = (playerCount + 1) % 256`, keeping it in `[0, 255]`.
When the computed id is already registered, `idToSocket[id] = socket`
silently replaces the entry: the displaced connection stays open but
disappears from the registry (so it receives no further broadcasts, which
iterate over the registry's values), and every other entry is untouched.
The overwrite itself raises no error, and with no parent socket the accept
completes without error; but when a parent socket exists, the player-count
report `writeUInt8(Object.keys(idToSocket).length, 1)` throws a RangeError
as soon as the registry holds more than 255 entries — which is already the
situation in the claim's 257th-concurrent-session scenario, so with a
parent attached (as in this source, whose accept path always receives the
parent socket) that accept raises an error rather than completing
silently. -/
theorem serverCode_id_assignment_and_overwrite (serverIndex playerCount : Nat)
    (reg : List (Nat × List Nat)) (newUid oldUid : List Nat)
    (hasParent : Bool) :
    (serverCode serverIndex playerCount reg newUid hasParent).sockId =
        playerCount + serverIndex * 256 ∧
    (serverCode serverIndex playerCount reg newUid hasParent).playerCount =
        (playerCount + 1) % 256 ∧
    (serverCode serverIndex playerCount reg newUid hasParent).playerCount ≤
        255 ∧
    (serverCode serverIndex playerCount reg newUid hasParent).idToSocket =
        aset reg (playerCount + serverIndex * 256) newUid ∧
    alookup (serverCode serverIndex playerCount reg newUid
        hasParent).idToSocket (playerCount + serverIndex * 256) =
      some newUid ∧
    (∀ j, j ≠ playerCount + serverIndex * 256 →
      alookup (serverCode serverIndex playerCount reg newUid
          hasParent).idToSocket j = alookup reg j) ∧
    (alookup reg (playerCount + serverIndex * 256) = some oldUid →
      oldUid ≠ newUid →
      (∀ en ∈ reg, en.2 = oldUid → en.1 = playerCount + serverIndex * 256) →
      oldUid ∉ (serverCode serverIndex playerCount reg newUid
        hasParent).idToSocket.map Prod.snd) ∧
    (hasParent = false → playerCount + serverIndex * 256 ≤ 65535 →
      (serverCode serverIndex playerCount reg newUid hasParent).err =
        none) ∧
    (hasParent = true → playerCount + serverIndex * 256 ≤ 65535 →
      255 < (aset reg (playerCount + serverIndex * 256) newUid).length →
      (serverCode serverIndex playerCount reg newUid hasParent).err =
        some rangeErr) := by
  have hreg : (serverCode serverIndex playerCount reg newUid
      hasParent).idToSocket =
      aset reg (playerCount + serverIndex * 256) newUid := by
    rw [serverCode]
    by_cases h1 : 65535 < playerCount + serverIndex * 256
    · rw [if_pos h1]
    · rw [if_neg h1]
      by_cases h2 : hasParent
      · rw [if_pos h2]
        by_cases h3 : 255 < (aset reg (playerCount + serverIndex * 256)
            newUid).length
        · rw [if_pos h3]
        · rw [if_neg h3]
      · rw [if_neg h2]
  have hid : (serverCode serverIndex playerCount reg newUid
      hasParent).sockId = playerCount + serverIndex * 256 := by
    rw [serverCode]
    by_cases h1 : 65535 < playerCount + serverIndex * 256
    · rw [if_pos h1]
    · rw [if_neg h1]
      by_cases h2 : hasParent
      · rw [if_pos h2]
        by_cases h3 : 255 < (aset reg (playerCount + serverIndex * 256)
            newUid).length
        · rw [if_pos h3]
        · rw [if_neg h3]
      · rw [if_neg h2]
  have hpc : (serverCode serverIndex playerCount reg newUid
      hasParent).playerCount = (playerCount + 1) % 256 := by
    rw [serverCode]
    by_cases h1 : 65535 < playerCount + serverIndex * 256
    · rw [if_pos h1]
    · rw [if_neg h1]
      by_cases h2 : hasParent
      · rw [if_pos h2]
        by_cases h3 : 255 < (aset reg (playerCount + serverIndex * 256)
            newUid).length
        · rw [if_pos h3]
        · rw [if_neg h3]
      · rw [if_neg h2]
  refine ⟨hid, hpc, ?_, hreg, ?_, ?_, ?_, ?_, ?_⟩
  · rw [hpc]; omega
  · rw [hreg]; exact alookup_aset_self reg _ newUid
  · intro j hj
    rw [hreg]; exact alookup_aset_ne reg _ j newUid hj
  · intro hold hne hw
    rw [hreg]
    exact aset_displaced_not_value reg _ newUid oldUid hne hw (by simp [hold])
  · intro hp h65
    rw [serverCode]
    rw [if_neg (by omega : ¬ 65535 < playerCount + serverIndex * 256)]
    rw [hp]
    simp
  · intro hp h65 hfull
    rw [serverCode]
    rw [if_neg (by omega : ¬ 65535 < playerCount + serverIndex * 256)]
    rw [hp]
    simp [hfull]

set_option maxRecDepth 10000 in
/-- C10 counterexample: the claim's own scenario — a registry already
holding 256 live sessions (ids 0-255) and the rolling counter back at 0 —
on a node connected to a parent (every accept in this source passes the
parent socket). The accept overwrites entry 0, but then raises a
RangeError while reporting the 256-entry registry size in a uint8 field,
refuting the claim that no error is raised. -/
theorem serverCode_overflow_raises_error :
    (serverCode 0 0 ((List.range 256).map (fun i => (i, [i]))) [999]
      true).err = some rangeErr ∧
    alookup ((List.range 256).map (fun i => (i, [i]))) 0 = some [0] := by
  constructor
  · rfl
  · rfl

/-- Witness for C10 at a small concrete overwrite without a parent socket:
the theorem applied with session id 0 already held by a live connection —
the entry is silently replaced, the displaced socket vanishes from the
registry values, and no error is raised. -/
theorem serverCode_id_assignment_witness :
    (serverCode 0 0 [(0, [97])] [98] false).sockId = 0 + 0 * 256 ∧
    (serverCode 0 0 [(0, [97])] [98] false).playerCount ≤ 255 ∧
    alookup (serverCode 0 0 [(0, [97])] [98] false).idToSocket
      (0 + 0 * 256) = some [98] ∧
    [97] ∉ (serverCode 0 0 [(0, [97])] [98] false).idToSocket.map
      Prod.snd ∧
    (serverCode 0 0 [(0, [97])] [98] false).err = none := by
  have h := serverCode_id_assignment_and_overwrite 0 0 [(0, [97])] [98] [97]
    false
  exact ⟨h.1, h.2.2.1, h.2.2.2.2.1,
    h.2.2.2.2.2.2.1 (by decide) (by decide) (by decide),
    h.2.2.2.2.2.2.2.1 rfl (by decide)⟩

/- ## clientID handling (claim C2) -/

theorem playerObjBuf_head (i : Nat) (s : List Nat) :
    (playerObjBuf i s)[0]? = some serverNet.playerObj := by
  rw [playerObjBuf_eq]
  rfl

theorem playerObjSends_ok (reg : List (Nat × List Nat)) (sid : Nat)
    (store : List (List Nat × List (List Nat × JVal)))
    (h : ∀ en ∈ reg, en.1 ≤ 255 ∧
      (en.1 ≠ sid → (alookup store en.2).isSome)) :
    ∃ l, playerObjSends reg sid store = .ok l ∧
      (∀ p ∈ l, p.1 = Target.sender ∧
        p.2[0]? = some serverNet.playerObj) ∧
      (∀ en ∈ reg, en.1 ≠ sid →
        ∃ o, (Target.sender, playerObjBuf en.1 (stringifyObj o)) ∈ l) := by
  induction reg with
  | nil => exact ⟨[], rfl, by simp, by simp⟩
  | cons en rest ih =>
    obtain ⟨h255, hstore⟩ := h en (List.mem_cons_self _ _)
    obtain ⟨l, hl, hall, hcov⟩ :=
      ih (fun e he => h e (List.mem_cons_of_mem _ he))
    by_cases hsid : en.1 = sid
    · refine ⟨l, ?_, hall, ?_⟩
      · simp only [playerObjSends, if_pos hsid]
        exact hl
      · intro e he hne
        rcases List.mem_cons.mp he with he1 | hmem
        · exact absurd (he1 ▸ hsid) hne
        · exact hcov e hmem hne
    · have hsome := hstore hsid
      obtain ⟨o, ho⟩ := Option.isSome_iff_exists.mp hsome
      refine ⟨(Target.sender, playerObjBuf en.1 (stringifyObj o)) :: l,
        ?_, ?_, ?_⟩
      · simp only [playerObjSends, if_neg hsid, if_pos h255, ho, hl]
      · intro p hp
        rcases List.mem_cons.mp hp with hp1 | hmem
        · rw [hp1]
          exact ⟨rfl, playerObjBuf_head _ _⟩
        · exact hall p hmem
      · intro e he hne
        rcases List.mem_cons.mp he with he1 | hmem
        · exact ⟨o, by rw [he1]; exact List.mem_cons_self _ _⟩
        · obtain ⟨o', ho'⟩ := hcov e hmem hne
          exact ⟨o', List.mem_cons_of_mem _ ho'⟩

/-- C2 (amended). On receipt of a clientID packet the dispatcher parses the
sanitized JSON payload, de-duplicates the submitted uid by appending `f`
(byte 102) until it matches no key of the Player State Store — so the
stored uid is fresh and no existing record is ever overwritten (two clients
submitting identity p1 end with the two distinct stored identities p1 and
p1f; see the witness) — stores the record under the fresh uid, broadcasts
the sender's full player object to every other registered session, and
sends the sender one playerObj packet per other live player. It does NOT
reply to the sender with an assign packet: every packet this case emits has
the playerObj type byte (9). The assign packet (sessionId plus the
server-generated uuid) is instead sent once at connection time by
`serverCode`, whose send list always contains it. -/
theorem clientID_processing (st : PState) (pl : List Nat)
    (fields : List (List Nat × List Nat)) (uid0 : List Nat) (fuel : Nat)
    (hlen : pl.length + 3 ≤ 32767)
    (hparse : parseJsonFlat (removeFirstFive (pl.filter (fun b => b ≠ 0))) =
      some fields)
    (huid : alookup fields uidKey = some uid0)
    (hsender : st.senderId ≤ 255)
    (hpeers : ∀ en ∈ st.idToSocket, en.1 ≤ 255 ∧
      (en.1 ≠ st.senderId → (alookup st.socketToData en.2).isSome)) :
    ∃ st1 sends,
      processPacket (fuel + 2) st (encodeFrame clientNet.ID pl) 0 =
        .ok (st1, sends) ∧
      alookup st.socketToData
        (dedupUid (st.socketToData.length + 1) st.socketToData uid0) =
          none ∧
      st1.senderUid =
        dedupUid (st.socketToData.length + 1) st.socketToData uid0 ∧
      (alookup st1.socketToData st1.senderUid).isSome ∧
      (∀ k w, alookup st.socketToData k = some w →
        alookup st1.socketToData k = some w) ∧
      (∀ p ∈ sends, p.2[0]? = some serverNet.playerObj) ∧
      (∀ en ∈ st.idToSocket, en.1 ≠ st.senderId →
        (Target.reg en.1, playerObjBuf st.senderId
          (removeFirstFive (pl.filter (fun b => b ≠ 0)))) ∈ sends) ∧
      (∀ en ∈ st.idToSocket, en.1 ≠ st.senderId →
        ∃ o, (Target.sender, playerObjBuf en.1 (stringifyObj o)) ∈ sends) ∧
      (∀ (sIdx pc : Nat) (regN : List (Nat × List Nat)) (uidN : List Nat)
        (hpar : Bool), pc + sIdx * 256 ≤ 65535 →
        (Target.sender, assignBuf (pc + sIdx * 256) uidN) ∈
          (serverCode sIdx pc regN uidN hpar).sends) := by
  have hfresh : alookup st.socketToData
      (dedupUid (st.socketToData.length + 1) st.socketToData uid0) = none :=
    dedupUid_fresh st.socketToData uid0
  have hset : aset st.socketToData
      (dedupUid (st.socketToData.length + 1) st.socketToData uid0)
      (if dedupUid (st.socketToData.length + 1) st.socketToData uid0 = uid0
        then List.map (fun kv => (kv.1, JVal.str kv.2)) fields
        else aset (List.map (fun kv => (kv.1, JVal.str kv.2)) fields) uidKey
          (JVal.str (dedupUid (st.socketToData.length + 1) st.socketToData
            uid0))) =
      st.socketToData ++
        [(dedupUid (st.socketToData.length + 1) st.socketToData uid0,
          if dedupUid (st.socketToData.length + 1) st.socketToData uid0 =
              uid0
            then List.map (fun kv => (kv.1, JVal.str kv.2)) fields
            else aset (List.map (fun kv => (kv.1, JVal.str kv.2)) fields)
              uidKey (JVal.str (dedupUid (st.socketToData.length + 1)
                st.socketToData uid0)))] :=
    aset_of_fresh _ _ _ hfresh
  obtain ⟨l, hl, hall, hcov⟩ := playerObjSends_ok st.idToSocket st.senderId
    (aset st.socketToData
      (dedupUid (st.socketToData.length + 1) st.socketToData uid0)
      (if dedupUid (st.socketToData.length + 1) st.socketToData uid0 = uid0
        then List.map (fun kv => (kv.1, JVal.str kv.2)) fields
        else aset (List.map (fun kv => (kv.1, JVal.str kv.2)) fields) uidKey
          (JVal.str (dedupUid (st.socketToData.length + 1) st.socketToData
            uid0))))
    (by
      intro en hen
      obtain ⟨h255, hsome⟩ := hpeers en hen
      refine ⟨h255, fun hne => ?_⟩
      obtain ⟨w, hw⟩ := Option.isSome_iff_exists.mp (hsome hne)
      rw [hset]
      rw [alookup_append_some _ _ _ _ hw]
      rfl)
  refine ⟨{ st with
      socketToData := aset st.socketToData
        (dedupUid (st.socketToData.length + 1) st.socketToData uid0)
        (if dedupUid (st.socketToData.length + 1) st.socketToData uid0 =
            uid0
          then List.map (fun kv => (kv.1, JVal.str kv.2)) fields
          else aset (List.map (fun kv => (kv.1, JVal.str kv.2)) fields)
            uidKey (JVal.str (dedupUid (st.socketToData.length + 1)
              st.socketToData uid0)))
      senderUid :=
        dedupUid (st.socketToData.length + 1) st.socketToData uid0
      idToSocket := st.idToSocket.map (fun en =>
        if en.1 = st.senderId then
          (en.1, dedupUid (st.socketToData.length + 1) st.socketToData uid0)
        else en) },
    (st.idToSocket.filter (fun en => en.1 ≠ st.senderId)).map (fun en =>
      (Target.reg en.1, playerObjBuf st.senderId
        (removeFirstFive (pl.filter (fun b => b ≠ 0))))) ++ l,
    ?_, hfresh, rfl, ?_, ?_, ?_, ?_, ?_, ?_⟩
  · rw [processPacket_single st clientNet.ID pl fuel hlen]
    rw [dispatchCase, if_pos rfl]
    have h30 : (3 : Nat) + 0 = 3 := rfl
    simp only [caseID, h30, readBufString_frame_single, hparse, huid,
      Option.getD_some]
    rw [if_pos hsender, hl]
  · show (alookup _ _).isSome
    rw [hset, alookup_append_none _ _ _ hfresh]
    simp [alookup]
  · intro k w hkw
    show alookup _ _ = _
    rw [hset]
    exact alookup_append_some _ _ _ _ hkw
  · intro p hp
    rcases List.mem_append.mp hp with hp1 | hp2
    · obtain ⟨en, _, hpe⟩ := List.mem_map.mp hp1
      rw [← hpe]
      exact playerObjBuf_head _ _
    · exact (hall p hp2).2
  · intro en hen hne
    refine List.mem_append_left _ (List.mem_map.mpr ⟨en,
      List.mem_filter.mpr ⟨hen, by simpa using hne⟩, rfl⟩)
  · intro en hen hne
    obtain ⟨o, ho⟩ := hcov en hen hne
    exact ⟨o, List.mem_append_right _ ho⟩
  · intro sIdx pc regN uidN hpar h65
    rw [serverCode, if_neg (by omega : ¬ 65535 < pc + sIdx * 256)]
    by_cases hp : hpar
    · rw [if_pos hp]
      by_cases hfull : 255 < (aset regN (pc + sIdx * 256) uidN).length
      · rw [if_pos hfull]
        exact List.mem_cons_self _ _
      · rw [if_neg hfull]
        exact List.mem_append_left _ (List.mem_cons_self _ _)
    · rw [if_neg hp]
      exact List.mem_cons_self _ _

/-- Concrete duplicate-identity scenario for C2: the store already holds a
record under identity `p1` (bytes [112, 49], belonging to registered
session 0), and session 1 now submits the payload `."uid":"p1".` (the JSON
object with the single field uid = p1). -/
def c2State : PState :=
  PState.mk [([112, 49], [(uidKey, JVal.str [112, 49])])]
    [(0, [112, 49]), (1, [98])] 1 [98] false true

def c2Payload : List Nat :=
  [123, 34, 117, 105, 100, 34, 58, 34, 112, 49, 34, 125]

def c2Fields : List (List Nat × List Nat) := [(uidKey, [112, 49])]

set_option maxRecDepth 10000 in
/-- C2 counterexample: processing the clientID packet at the concrete
duplicate-identity state succeeds and emits exactly two sends, both
carrying the playerObj type byte (9) as their first byte — no send is an
assign packet (type byte 1). This refutes the claim that the dispatcher
replies to the sender with an assign packet on receipt of the identity
packet. -/
theorem clientID_no_assign_reply :
    (processPacket 3 c2State (encodeFrame clientNet.ID c2Payload)
        0).toOption.map
      (fun r => (r.2.length, r.2.map (fun p => p.2.head?))) =
      some (2, [some serverNet.playerObj, some serverNet.playerObj]) := by
  rfl

set_option maxRecDepth 10000 in
/-- Witness for C2: the theorem applied at the duplicate-identity state. The
extra first conjunct pins the de-duplication result: submitting `p1` while
`p1` is stored yields the distinct identity `p1f` (bytes [112, 49, 102]). -/
theorem clientID_processing_witness :
    dedupUid (c2State.socketToData.length + 1) c2State.socketToData
        [112, 49] = [112, 49, 102] ∧
    (c2Payload.length + 3 ≤ 32767) ∧
    (parseJsonFlat (removeFirstFive (c2Payload.filter (fun b => b ≠ 0))) =
      some c2Fields) ∧
    (alookup c2Fields uidKey = some [112, 49]) ∧
    (c2State.senderId ≤ 255) ∧
    (∀ en ∈ c2State.idToSocket, en.1 ≤ 255 ∧
      (en.1 ≠ c2State.senderId →
        (alookup c2State.socketToData en.2).isSome)) ∧
    (∃ st1 sends,
      processPacket (1 + 2) c2State (encodeFrame clientNet.ID c2Payload) 0 =
        .ok (st1, sends) ∧
      alookup c2State.socketToData
        (dedupUid (c2State.socketToData.length + 1) c2State.socketToData
          [112, 49]) = none ∧
      st1.senderUid =
        dedupUid (c2State.socketToData.length + 1) c2State.socketToData
          [112, 49] ∧
      (alookup st1.socketToData st1.senderUid).isSome ∧
      (∀ k w, alookup c2State.socketToData k = some w →
        alookup st1.socketToData k = some w) ∧
      (∀ p ∈ sends, p.2[0]? = some serverNet.playerObj) ∧
      (∀ en ∈ c2State.idToSocket, en.1 ≠ c2State.senderId →
        (Target.reg en.1, playerObjBuf c2State.senderId
          (removeFirstFive (c2Payload.filter (fun b => b ≠ 0)))) ∈ sends) ∧
      (∀ en ∈ c2State.idToSocket, en.1 ≠ c2State.senderId →
        ∃ o, (Target.sender, playerObjBuf en.1 (stringifyObj o)) ∈ sends) ∧
      (∀ (sIdx pc : Nat) (regN : List (Nat × List Nat)) (uidN : List Nat)
        (hpar : Bool), pc + sIdx * 256 ≤ 65535 →
        (Target.sender, assignBuf (pc + sIdx * 256) uidN) ∈
          (serverCode sIdx pc regN uidN hpar).sends)) :=
  ⟨by decide, by decide, by decide, by decide, by decide, by decide,
    clientID_processing c2State c2Payload c2Fields [112, 49] 1 (by decide)
      (by decide) (by decide) (by decide) (by decide)⟩

/- ## The framing loop on the faithful dispatcher (claim C1) -/

/-- The packet-processing loop on an encoded frame sequence equals the
per-frame dispatch fold: one switch-body run per sub-packet, at that
sub-packet's offset, in order, short-circuiting at the first thrown
error. -/
theorem processPacket_dispatchFrames (ps : List (Nat × List Nat)) :
    ∀ (pre : List Nat) (fuel : Nat) (st : PState), ps.length < fuel →
    (∀ p ∈ ps, wfPacket p) →
    processPacket fuel st (pre ++ encodePackets ps) pre.length =
      dispatchFrames (pre ++ encodePackets ps) st pre.length ps := by
  induction ps with
  | nil =>
    intro pre fuel st hf _
    cases fuel with
    | zero => omega
    | succ f =>
      simp [processPacket, dispatchFrames, encodePackets]
  | cons p ps ih =>
    intro pre fuel st hf hwf
    obtain ⟨ty, pl⟩ := p
    cases fuel with
    | zero => omega
    | succ f =>
      have hwfp : wfPacket (ty, pl) := hwf _ (List.mem_cons_self _ _)
      have hlen : pl.length + 3 ≤ 32767 := hwfp.2
      have henc : encodePackets ((ty, pl) :: ps) =
          encodeFrame ty pl ++ encodePackets ps := by
        simp [encodePackets]
      rw [henc]
      have hlt : pre.length <
          (pre ++ (encodeFrame ty pl ++ encodePackets ps)).length := by
        simp only [List.length_append, encodeFrame_length]
        omega
      have hread := readInt16LE_encodeFrame ty pl (encodePackets ps) pre hlen
      have hty := readUInt8_encodeFrame_type ty pl (encodePackets ps) pre
      have hpos : (0 : Int) ≤ (pre.length : Int) + ((pl.length : Int) + 3) :=
        by omega
      have he : (((pre.length : Int) + ((pl.length : Int) + 3))).toNat =
          pre.length + (pl.length + 3) := by omega
      simp only [processPacket, hread, hty]
      rw [if_pos hlt, if_pos hpos, he]
      cases hd : dispatchCase st
          (pre ++ (encodeFrame ty pl ++ encodePackets ps)) pre.length
          (pre.length + (pl.length + 3)) ty with
      | error er => simp only [dispatchFrames, hd]
      | ok r =>
        obtain ⟨st1, sends⟩ := r
        have hstep : processPacket f st1
            (pre ++ (encodeFrame ty pl ++ encodePackets ps))
            (pre.length + (pl.length + 3)) =
            dispatchFrames (pre ++ (encodeFrame ty pl ++ encodePackets ps))
              st1 (pre.length + (pl.length + 3)) ps := by
          have hassoc : pre ++ (encodeFrame ty pl ++ encodePackets ps) =
              (pre ++ encodeFrame ty pl) ++ encodePackets ps := by
            simp [List.append_assoc]
          have hlen2 : (pre ++ encodeFrame ty pl).length =
              pre.length + (pl.length + 3) := by
            simp [encodeFrame_length]
          have h := ih (pre ++ encodeFrame ty pl) f st1
            (by simpa using Nat.lt_of_succ_lt_succ hf)
            (fun q hq => hwf q (List.mem_cons_of_mem _ hq))
          rw [hassoc, ← hlen2]
          exact h
        simp only [dispatchFrames, hd, hstep]

/-- C1 (amended). Fed a buffer of `k ≥ 1` back-to-back sub-packets laid out
as `[frameLength:int16-LE][type:uint8][payload]`, the packet-processing
loop (lines 173-179, 275-276) walks the buffer exactly as described —
offset 0, read `frameLength`, `end = offset + frameLength`, hand the type
byte and the byte-identical payload slice `[offset+3, end)` to the switch,
`offset = end`, until the buffer length is reached (first conjunct, the
frame traversal); and the dispatcher performs one switch-body run per
sub-packet at that sub-packet's offset, in order (second conjunct): all
`k` dispatches complete exactly when every case body returns normally,
while a case body that throws (a JSON SyntaxError, the leave case's `isWS`
ReferenceError, ...) aborts the loop mid-read, so fewer than `k`
sub-packets are dispatched for such payloads (see the counterexample). -/
theorem framing_loop_roundtrip (ps : List (Nat × List Nat)) (fuel : Nat)
    (hk : 1 ≤ ps.length) (hfuel : ps.length < fuel)
    (hwf : ∀ p ∈ ps, wfPacket p) :
    decodeFrames fuel (encodePackets ps) 0 = some ps ∧
    ∀ st : PState, processPacket fuel st (encodePackets ps) 0 =
      dispatchFrames (encodePackets ps) st 0 ps := by
  constructor
  · have h := decodeFrames_encodePackets ps [] fuel hfuel hwf
    simpa using h
  · intro st
    have h := processPacket_dispatchFrames ps [] fuel st hfuel hwf
    simpa using h

/-- C1 counterexample: the two-sub-packet read
`[(20, [1, 2, 3]), (25, [104, 105])]` (a clientID frame, then a chat
frame), processed at a state with two registered sessions. The claim says
the loop dispatches exactly `k = 2` packets; instead the first frame's
clientID case throws a SyntaxError parsing the payload bytes `[1, 2, 3]`
as JSON, the loop aborts, and the chat frame is never dispatched (no chat
packet reaches session 1). -/
theorem framing_roundtrip_counterexample :
    processPacket 3 (PState.mk [] [(0, [97]), (1, [98])] 0 [97] false true)
        (encodePackets [(20, [1, 2, 3]), (25, [104, 105])]) 0 =
      .error jsonParseErr := by
  rfl

/-- Witness for C1 at a read whose two case bodies (chat, heartbeat) both
return normally: the theorem applies, and evaluating the dispatcher on it
confirms both frames are dispatched (two sends: the chat broadcast to the
peer and the heartbeat reply to the sender). -/
theorem framing_loop_roundtrip_witness :
    (1 ≤ ([(25, [104, 105]), (29, [])] : List (Nat × List Nat)).length) ∧
    (([(25, [104, 105]), (29, [])] : List (Nat × List Nat)).length < 3) ∧
    (∀ p ∈ ([(25, [104, 105]), (29, [])] : List (Nat × List Nat)),
      wfPacket p) ∧
    (decodeFrames 3 (encodePackets [(25, [104, 105]), (29, [])]) 0 =
        some [(25, [104, 105]), (29, [])] ∧
      ∀ st : PState, processPacket 3 st
          (encodePackets [(25, [104, 105]), (29, [])]) 0 =
        dispatchFrames (encodePackets [(25, [104, 105]), (29, [])]) st 0
          [(25, [104, 105]), (29, [])]) ∧
    (processPacket 3 (PState.mk [] [(0, [97]), (1, [98])] 0 [97] false true)
        (encodePackets [(25, [104, 105]), (29, [])]) 0).toOption.map
      (fun r => r.2.length) = some 2 :=
  ⟨by decide, by decide, by decide,
    framing_loop_roundtrip [(25, [104, 105]), (29, [])] 3 (by decide)
      (by decide) (by decide),
    by rfl⟩
